import Mathlib

/-!
Verification development for the chat-driven analytics assistant backend.

Shallow embedding of the pipeline and store-gateway code:
  backend/src/utils/cosmos_bulk_operations.py  (bulk create / upsert / delete)
  backend/src/agents/query_understanding_agent.py  (completion parsing)
  backend/src/agents/data_retrieval_agent.py  (retrieval stage)
  backend/src/agents/orchestrator.py  (four-stage workflow)
  backend/src/services/cosmos_service.py  (store gateway)

Python dictionaries are modelled as association lists, Python values by a
small inductive type with Python truthiness, fallible code by Except, and
calls to the external store by an explicit call trace threaded through the
embedded functions.
-/

/-- Python-like scalar value stored in an item dictionary. -/
inductive PyVal where
  | str : String → PyVal
  | int : Int → PyVal
  | bool : Bool → PyVal
  | none : PyVal
deriving DecidableEq, Repr

/-- Python truthiness of a value (used by the `or` fallback and `if not pk`). -/
def PyVal.truthy : PyVal → Bool
  | .str s => s ≠ ""
  | .int n => n ≠ 0
  | .bool b => b
  | .none => false

/-- An item, i.e. a Python dict with string keys (first binding wins). -/
abbrev Item := List (String × PyVal)

/-- Model of `dict.get(key)`: the value bound to the key, defaulting to None. -/
def pyGet (item : Item) (key : String) : PyVal :=
  match item with
  | [] => PyVal.none
  | (k, v) :: rest => if k = key then v else pyGet rest key

/-- A partition-key value: a single scalar, or a tuple for hierarchical keys. -/
inductive PartitionKeyVal where
  | single : PyVal → PartitionKeyVal
  | tuple : List PyVal → PartitionKeyVal
deriving DecidableEq, Repr

/-- Whitespace for the purposes of `str.strip()` on the blank-free field
names used here. -/
def isSpaceChar (c : Char) : Bool :=
  c = ' ' || c = '\t' || c = '\n' || c = Char.ofNat 13

/-- Model of `str.strip()`: drop leading and trailing whitespace. -/
def stripStr (s : String) : String :=
  String.mk (((s.toList.dropWhile isSpaceChar).reverse.dropWhile isSpaceChar).reverse)

/-- Splitting on the comma character, as `partition_key_path.split(',')`
does: every comma separates two (possibly empty) segments. -/
def splitCommaAux : List Char → List Char → List String
  | [], acc => [String.mk acc.reverse]
  | c :: rest, acc =>
    if c = ',' then String.mk acc.reverse :: splitCommaAux rest []
    else splitCommaAux rest (c :: acc)

/-- Whether the path names a hierarchical key: `',' in partition_key_path`. -/
def hasComma (path : String) : Bool := path.toList.any (fun c => c = ',')

/-- The field names of a hierarchical partition-key path, as computed by
`[f.strip() for f in partition_key_path.split(',')]`. -/
def hierFields (path : String) : List String :=
  (splitCommaAux path.toList []).map stripStr

/-- The partition key computed for one item by the loop body of
`CosmosBulkOperations._group_by_partition_key` (cosmos_bulk_operations.py,
lines 250-276): hierarchical paths collect every field value, giving up on the
first field whose value is None (the for-else break); single paths fall back
from the named field to the id field through Python `or`, and drop the item
when the result is falsy. `Option.none` means the item is dropped from the
grouping with a warning. -/
def computePK (path : String) (item : Item) : Option PartitionKeyVal :=
  if hasComma path then
    match (hierFields path).mapM (fun f =>
      match pyGet item f with
      | PyVal.none => Option.none
      | v => some v) with
    | some vals => some (PartitionKeyVal.tuple vals)
    | Option.none => Option.none
  else
    let v := pyGet item path
    let pk := if v.truthy then v else pyGet item "id"
    if pk.truthy then some (PartitionKeyVal.single pk) else Option.none

/-- Append a value to the group of the given key, preserving the insertion
order of first occurrence (Python defaultdict semantics). -/
def addToGroup {β : Type} (groups : List (PartitionKeyVal × List β))
    (pk : PartitionKeyVal) (x : β) : List (PartitionKeyVal × List β) :=
  match groups with
  | [] => [(pk, [x])]
  | (k, xs) :: rest =>
    if k = pk then (k, xs ++ [x]) :: rest
    else (k, xs) :: addToGroup rest pk x

/-- One step of the grouping loop: compute the key of the element; skip the
element (with a warning in the source) when no key is computed. -/
def groupStep {α β : Type} (key : α → Option PartitionKeyVal) (val : α → β)
    (groups : List (PartitionKeyVal × List β)) (x : α) :
    List (PartitionKeyVal × List β) :=
  match key x with
  | some pk => addToGroup groups pk (val x)
  | Option.none => groups

/-- Generic grouping fold shared by `_group_by_partition_key` and the inline
grouping loop of `bulk_delete_items`: items whose key function yields
`Option.none` are skipped. -/
def groupByKeyVal {α β : Type} (key : α → Option PartitionKeyVal) (val : α → β)
    (xs : List α) : List (PartitionKeyVal × List β) :=
  xs.foldl (groupStep key val) []

/-- Model of `CosmosBulkOperations._group_by_partition_key`. -/
def groupByPartitionKey (items : List Item) (path : String) :
    List (PartitionKeyVal × List Item) :=
  groupByKeyVal (computePK path) id items

/-- One operation inside an `execute_item_batch` call. -/
inductive BatchOp where
  | create : Item → BatchOp
  | upsert : Item → BatchOp
  | delete : PyVal → BatchOp
deriving DecidableEq, Repr

/-- The behavior of `container.execute_item_batch`: given the partition key and
the operation list, either a list of per-operation status codes or a raised
exception (message). -/
abbrev BatchEnv := PartitionKeyVal → List BatchOp → Except String (List Nat)

/-- Trace of the batch calls issued to the store, in order. -/
abbrev BatchTrace := List (PartitionKeyVal × List BatchOp)

/-- Membership test of `status_code in [200, 201]`. -/
def isSuccessStatus (s : Nat) : Bool := s == 200 || s == 201

/-- Cosmos DB batch size ceiling used by `_insert_single_partition_batch`. -/
def MAX_BATCH_SIZE : Nat := 100

/-- Chunking loop, fuel-indexed so that it computes by structural recursion;
the fuel never runs out when it starts at the list length, since every round
drops at least one element. -/
def chunkAux {α : Type} : Nat → List α → List (List α)
  | 0, _ => []
  | _ + 1, [] => []
  | n + 1, x :: rest =>
    ((x :: rest).take MAX_BATCH_SIZE) :: chunkAux n ((x :: rest).drop MAX_BATCH_SIZE)

/-- Chunking performed by `for i in range(0, len(items), MAX_BATCH_SIZE)`. -/
def chunk100 {α : Type} (xs : List α) : List (List α) :=
  chunkAux xs.length xs

/-- The per-result loop of `_insert_single_partition_batch` (lines 309-317):
iterate over the returned results with their index, appending `batch[idx]` for
success statuses; indexing past the end of the batch raises an IndexError that
the surrounding except-handler catches (returning what was accumulated so far
is irrelevant there because the whole chunk loop body is in the try block and
`created_items.append` already happened for earlier indexes). -/
def collectCreated (batch : List Item) : List Nat → Nat → List Item → List Item
  | [], _, acc => acc
  | s :: rest, idx, acc =>
    match batch.get? idx with
    | Option.none => acc
    | some item =>
      if isSuccessStatus s then collectCreated batch rest (idx + 1) (acc ++ [item])
      else collectCreated batch rest (idx + 1) acc

/-- Model of `CosmosBulkOperations._insert_single_partition_batch`: chunk the
items at 100, issue one batch call per chunk against the given partition key
(a tuple key is passed as `list(pk)`, same component values), and accumulate
the successfully created items; a raised exception for one chunk is caught and
logged, and the loop proceeds to the next chunk. -/
def insertChunkStep (env : BatchEnv) (pk : PartitionKeyVal)
    (acc : List Item × BatchTrace) (batch : List Item) : List Item × BatchTrace :=
  match env pk (batch.map BatchOp.create) with
  | Except.ok statuses =>
    (acc.1 ++ collectCreated batch statuses 0 [], acc.2 ++ [(pk, batch.map BatchOp.create)])
  | Except.error _ => (acc.1, acc.2 ++ [(pk, batch.map BatchOp.create)])

def insertSinglePartitionBatch (env : BatchEnv) (pk : PartitionKeyVal)
    (items : List Item) : List Item × BatchTrace :=
  (chunk100 items).foldl (insertChunkStep env pk) ([], [])

/-- Model of `CosmosBulkOperations._insert_cross_partition_batches`: one
single-partition insert per group; the asyncio fan-out/fan-in over independent
tasks is modelled as a sequential fold in group order (the merge order of the
gathered task list). -/
def crossFoldStep (env : BatchEnv) (acc : List Item × BatchTrace)
    (g : PartitionKeyVal × List Item) : List Item × BatchTrace :=
  (acc.1 ++ (insertSinglePartitionBatch env g.1 g.2).1,
   acc.2 ++ (insertSinglePartitionBatch env g.1 g.2).2)

def insertCrossPartitionBatches (env : BatchEnv)
    (groups : List (PartitionKeyVal × List Item)) : List Item × BatchTrace :=
  groups.foldl (crossFoldStep env) ([], [])

/-- Model of `CosmosBulkOperations.bulk_create_items`: fail fast on an empty
list; group by partition key; with exactly one group, take the atomic-batch
path, which passes the ORIGINAL `items` list (not the group) against the lone
key; otherwise fan out per group. -/
def bulkCreateItems (env : BatchEnv) (items : List Item) (path : String) :
    Except String (List Item × BatchTrace) :=
  if items = [] then Except.error "Items list cannot be empty"
  else
    let groups := groupByPartitionKey items path
    if groups.length = 1 then
      match groups with
      | (pk, _) :: _ => Except.ok (insertSinglePartitionBatch env pk items)
      | [] => Except.ok ([], [])
    else
      Except.ok (insertCrossPartitionBatches env groups)

/-- The list comprehension of `bulk_upsert_items` (lines 133-136): keep the
batch items whose indexed result has a success status; `results[i]` raises an
IndexError when the result list is shorter than the batch, which the partition
handler catches (yielding zero successes for the partition). -/
def collectUpserted : List Item → List Nat → Except String (List Item)
  | [], _ => Except.ok []
  | _ :: _, [] => Except.error "IndexError: list index out of range"
  | item :: rest, s :: srest =>
    match collectUpserted rest srest with
    | Except.error e => Except.error e
    | Except.ok tail => Except.ok (if isSuccessStatus s then item :: tail else tail)

/-- The inner `upsert_partition_batch` of `bulk_upsert_items`: one batch call
for the partition; any exception is caught and the partition contributes an
empty success list. -/
def upsertPartitionBatch (env : BatchEnv) (pk : PartitionKeyVal)
    (batchItems : List Item) : List Item × BatchTrace :=
  let ops := batchItems.map BatchOp.upsert
  match env pk ops with
  | Except.error _ => ([], [(pk, ops)])
  | Except.ok statuses =>
    match collectUpserted batchItems statuses with
    | Except.error _ => ([], [(pk, ops)])
    | Except.ok ok => (ok, [(pk, ops)])

/-- Model of `CosmosBulkOperations.bulk_upsert_items`: fail fast on an empty
list; group by partition key; run every partition batch (concurrently in the
source, merged in task-list order) and flatten the per-partition successes. -/
def upsertFoldStep (env : BatchEnv) (acc : List Item × BatchTrace)
    (g : PartitionKeyVal × List Item) : List Item × BatchTrace :=
  (acc.1 ++ (upsertPartitionBatch env g.1 g.2).1,
   acc.2 ++ (upsertPartitionBatch env g.1 g.2).2)

def bulkUpsertItems (env : BatchEnv) (items : List Item) (path : String) :
    Except String (List Item × BatchTrace) :=
  if items = [] then Except.error "Items list cannot be empty"
  else
    Except.ok ((groupByPartitionKey items path).foldl (upsertFoldStep env) ([], []))

/-- The inner `delete_partition_batch` of `bulk_delete_items`: one batch call
per partition; successes are the results with status 204; any exception is
caught and the partition contributes zero. -/
def deletePartitionBatch (env : BatchEnv) (pk : PartitionKeyVal)
    (ids : List PyVal) : Nat × BatchTrace :=
  let ops := ids.map BatchOp.delete
  match env pk ops with
  | Except.error _ => (0, [(pk, ops)])
  | Except.ok statuses => (statuses.count 204, [(pk, ops)])

/-- Model of `CosmosBulkOperations.bulk_delete_items`: fail fast on an empty
list; group the (id, partition key) pairs by partition key; run every
partition batch and sum the per-partition deletion counts. -/
def deleteFoldStep (env : BatchEnv) (acc : Nat × BatchTrace)
    (g : PartitionKeyVal × List PyVal) : Nat × BatchTrace :=
  (acc.1 + (deletePartitionBatch env g.1 g.2).1,
   acc.2 ++ (deletePartitionBatch env g.1 g.2).2)

def bulkDeleteItems (env : BatchEnv) (itemIds : List (PyVal × PartitionKeyVal)) :
    Except String (Nat × BatchTrace) :=
  if itemIds = [] then Except.error "Item IDs list cannot be empty"
  else
    Except.ok ((groupByKeyVal (fun p => some p.2) Prod.fst itemIds).foldl
      (deleteFoldStep env) (0, []))

/-! ## Query Understanding Stage: completion parsing

Model of `QueryUnderstandingAgent._parse_query_analysis`
(query_understanding_agent.py, lines 172-219): scan the completion for the
first brace-balanced substring of nesting depth at most 3 (the regex
`\{(?:[^{}]|(?:\{(?:[^{}]|(?:\{[^{}]*\}))*\}))*\}` with DOTALL), feed it to
`json.loads`, validate the four required keys, and otherwise return the
fallback dictionary. -/

/-- JSON value. Numeric literals keep their lexeme (no floating point is
needed by any claim). -/
inductive Json where
  | null : Json
  | bool : Bool → Json
  | num : String → Json
  | str : String → Json
  | arr : List Json → Json
  | obj : List (String × Json) → Json
deriving Repr

def jsonWs (c : Char) : Bool := c = ' ' || c = '\t' || c = '\n' || c = Char.ofNat 13

def skipWs : List Char → List Char
  | [] => []
  | c :: rest => if jsonWs c then skipWs rest else c :: rest

def hexVal (c : Char) : Option Nat :=
  if '0' ≤ c ∧ c ≤ '9' then some (c.toNat - 48)
  else if 'a' ≤ c ∧ c ≤ 'f' then some (c.toNat - 87)
  else if 'A' ≤ c ∧ c ≤ 'F' then some (c.toNat - 55)
  else Option.none

def dquote : Char := Char.ofNat 34
def lbrace : Char := Char.ofNat 123
def rbrace : Char := Char.ofNat 125

/-- Body of a JSON string literal after its opening quote: standard escapes
and a strict-mode rejection of raw control characters, as in `json.loads`.
A `\u` escape becomes a single code point (surrogate pairs are not combined;
no claim depends on them). -/
def parseStringBody : Nat → List Char → List Char → Option (String × List Char)
  | 0, _, _ => Option.none
  | _ + 1, _, [] => Option.none
  | fuel + 1, acc, c :: rest =>
    if c = dquote then some (String.mk acc.reverse, rest)
    else if c = '\\' then
      match rest with
      | [] => Option.none
      | e :: rest2 =>
        if e = dquote then parseStringBody fuel (dquote :: acc) rest2
        else if e = '\\' then parseStringBody fuel ('\\' :: acc) rest2
        else if e = '/' then parseStringBody fuel ('/' :: acc) rest2
        else if e = 'b' then parseStringBody fuel (Char.ofNat 8 :: acc) rest2
        else if e = 'f' then parseStringBody fuel (Char.ofNat 12 :: acc) rest2
        else if e = 'n' then parseStringBody fuel ('\n' :: acc) rest2
        else if e = 'r' then parseStringBody fuel (Char.ofNat 13 :: acc) rest2
        else if e = 't' then parseStringBody fuel ('\t' :: acc) rest2
        else if e = 'u' then
          match rest2 with
          | h1 :: h2 :: h3 :: h4 :: rest3 =>
            match hexVal h1, hexVal h2, hexVal h3, hexVal h4 with
            | some a, some b, some c2, some d =>
              parseStringBody fuel (Char.ofNat (a * 4096 + b * 256 + c2 * 16 + d) :: acc) rest3
            | _, _, _, _ => Option.none
          | _ => Option.none
        else Option.none
    else if c.toNat < 32 then Option.none
    else parseStringBody fuel (c :: acc) rest

def isDigit (c : Char) : Bool := '0' ≤ c && c ≤ '9'

def takeDigits : List Char → List Char × List Char
  | [] => ([], [])
  | c :: rest =>
    if isDigit c then
      let (ds, r) := takeDigits rest
      (c :: ds, r)
    else ([], c :: rest)

/-- Optional exponent part of a JSON number. -/
def contExp (acc : List Char) (cs : List Char) : Option (String × List Char) :=
  match cs with
  | c :: rest =>
    if c = 'e' ∨ c = 'E' then
      match rest with
      | s :: rest2 =>
        if s = '+' ∨ s = '-' then
          match rest2 with
          | d :: _ =>
            if isDigit d then
              let (ds, r) := takeDigits rest2
              some (String.mk (acc ++ [c, s] ++ ds), r)
            else Option.none
          | [] => Option.none
        else if isDigit s then
          let (ds, r) := takeDigits rest
          some (String.mk (acc ++ c :: ds), r)
        else Option.none
      | [] => Option.none
    else some (String.mk acc, cs)
  | [] => some (String.mk acc, [])

/-- Optional fraction part of a JSON number, then an optional exponent. -/
def contFrac (acc : List Char) (cs : List Char) : Option (String × List Char) :=
  match cs with
  | c :: rest =>
    if c = '.' then
      match rest with
      | d :: _ =>
        if isDigit d then
          let (ds, r) := takeDigits rest
          contExp (acc ++ c :: ds) r
        else Option.none
      | [] => Option.none
    else contExp acc cs
  | [] => contExp acc []

/-- JSON number lexeme: optional minus, integer part without leading zeros,
optional fraction and exponent. -/
def parseNumberLexeme (cs : List Char) : Option (String × List Char) :=
  let signSplit : List Char × List Char :=
    match cs with
    | c :: rest => if c = '-' then ([c], rest) else ([], cs)
    | [] => ([], [])
  match signSplit.2 with
  | [] => Option.none
  | c :: rest =>
    if c = '0' then contFrac (signSplit.1 ++ [c]) rest
    else if isDigit c then
      let (ds, r) := takeDigits rest
      contFrac (signSplit.1 ++ c :: ds) r
    else Option.none

/-- Insert-or-update of an object member, keeping the first-insertion position
and the last value, as a Python dict built by the json decoder does. -/
def objInsert (pairs : List (String × Json)) (k : String) (v : Json) :
    List (String × Json) :=
  match pairs with
  | [] => [(k, v)]
  | (k0, v0) :: rest => if k0 = k then (k0, v) :: rest else (k0, v0) :: objInsert rest k v

mutual

/-- Fuel-indexed JSON value grammar of `json.loads`. -/
def parseJsonVal : Nat → List Char → Option (Json × List Char)
  | 0, _ => Option.none
  | fuel + 1, cs =>
    match skipWs cs with
    | [] => Option.none
    | c :: rest =>
      if c = lbrace then
        match skipWs rest with
        | c2 :: rest2 =>
          if c2 = rbrace then some (Json.obj [], rest2)
          else parseJsonMembers fuel (c2 :: rest2) []
        | [] => Option.none
      else if c = '[' then
        match skipWs rest with
        | c2 :: rest2 =>
          if c2 = ']' then some (Json.arr [], rest2)
          else parseJsonElems fuel (c2 :: rest2) []
        | [] => Option.none
      else if c = dquote then
        match parseStringBody (rest.length + 1) [] rest with
        | some (s, r) => some (Json.str s, r)
        | Option.none => Option.none
      else if c = 't' then
        match rest with
        | 'r' :: 'u' :: 'e' :: r => some (Json.bool true, r)
        | _ => Option.none
      else if c = 'f' then
        match rest with
        | 'a' :: 'l' :: 's' :: 'e' :: r => some (Json.bool false, r)
        | _ => Option.none
      else if c = 'n' then
        match rest with
        | 'u' :: 'l' :: 'l' :: r => some (Json.null, r)
        | _ => Option.none
      else
        match parseNumberLexeme (c :: rest) with
        | some (s, r) => some (Json.num s, r)
        | Option.none => Option.none

/-- Members of a JSON object, the head of the input being the first
non-whitespace character after the opening brace (known not to be a closing
brace). -/
def parseJsonMembers : Nat → List Char → List (String × Json) →
    Option (Json × List Char)
  | 0, _, _ => Option.none
  | fuel + 1, cs, acc =>
    match cs with
    | c :: rest =>
      if c = dquote then
        match parseStringBody (rest.length + 1) [] rest with
        | some (key, r1) =>
          match skipWs r1 with
          | ':' :: r2 =>
            match parseJsonVal fuel r2 with
            | some (v, r3) =>
              match skipWs r3 with
              | ',' :: r4 =>
                match skipWs r4 with
                | c5 :: r5 => parseJsonMembers fuel (c5 :: r5) (objInsert acc key v)
                | [] => Option.none
              | c4 :: r4 =>
                if c4 = rbrace then some (Json.obj (objInsert acc key v), r4)
                else Option.none
              | [] => Option.none
            | Option.none => Option.none
          | _ => Option.none
        | Option.none => Option.none
      else Option.none
    | [] => Option.none

/-- Elements of a JSON array, the head of the input being the first
non-whitespace character after the opening bracket. -/
def parseJsonElems : Nat → List Char → List Json → Option (Json × List Char)
  | 0, _, _ => Option.none
  | fuel + 1, cs, acc =>
    match parseJsonVal fuel cs with
    | some (v, r) =>
      match skipWs r with
      | ',' :: r2 => parseJsonElems fuel r2 (acc ++ [v])
      | c2 :: r2 => if c2 = ']' then some (Json.arr (acc ++ [v]), r2) else Option.none
      | [] => Option.none
    | Option.none => Option.none

end

/-- Model of `json.loads`: parse one value and require only whitespace after
it. The fuel is ample: every recursive call consumes input. -/
def jsonLoads (s : String) : Option Json :=
  match parseJsonVal (2 * s.length + 4) s.toList with
  | some (v, rest) => if skipWs rest = [] then some v else Option.none
  | Option.none => Option.none

/-- Body of a brace-balanced block after its opening brace, allowing `depth`
further nesting levels below the current one, consuming up to and including
the matching closing brace. This is the deterministic reading of the
depth-limited regex used by `_parse_query_analysis`; character classes and
braces are disjoint, so the regex engine's backtracking never changes the
outcome. -/
def braceBody : Nat → Nat → List Char → Option (List Char × List Char)
  | 0, _, _ => Option.none
  | _ + 1, _, [] => Option.none
  | fuel + 1, depth, c :: rest =>
    if c = rbrace then some ([c], rest)
    else if c = lbrace then
      match depth with
      | 0 => Option.none
      | d + 1 =>
        match braceBody fuel d rest with
        | some (inner, rest2) =>
          match braceBody fuel depth rest2 with
          | some (tail, rest3) => some (c :: (inner ++ tail), rest3)
          | Option.none => Option.none
        | Option.none => Option.none
    else
      match braceBody fuel depth rest with
      | some (tail, rest2) => some (c :: tail, rest2)
      | Option.none => Option.none

/-- Model of `re.search` with the depth-3 brace pattern: try each start
position from the left; at an opening brace, match a block of nesting depth
at most 3 (two further levels below the outermost). -/
def braceSearch : List Char → Option String
  | [] => Option.none
  | c :: rest =>
    if c = lbrace then
      match braceBody (rest.length + 1) 2 rest with
      | some (body, _) => some (String.mk (c :: body))
      | Option.none => braceSearch rest
    else braceSearch rest

/-- The four required keys validated at line 195 of
query_understanding_agent.py. -/
def requiredKeys : List String := ["intent", "query_type", "entities", "cosmos_query"]

/-- Lookup in a parsed object (unique keys by construction). -/
def jLookup (pairs : List (String × Json)) (key : String) : Option Json :=
  match pairs with
  | [] => Option.none
  | (k, v) :: rest => if k = key then some v else jLookup rest key

def hasRequiredKeys (pairs : List (String × Json)) : Bool :=
  requiredKeys.all (fun k => (jLookup pairs k).isSome)

/-- The fallback dictionary returned when no structured analysis could be
extracted (query_understanding_agent.py, lines 210-219). -/
def fallbackAnalysis (response originalQuery : String) : List (String × Json) :=
  [("intent", Json.str "analyze_data"),
   ("query_type", Json.str "analytical"),
   ("entities", Json.obj []),
   ("cosmos_query", Json.str ""),
   ("query_parameters", Json.arr []),
   ("reformulated_query", Json.str originalQuery),
   ("raw_analysis", Json.str response),
   ("parse_error", Json.str "Could not extract structured data from LLM response")]

/-- Decoding and validation of one candidate substring (lines 191-199 of
query_understanding_agent.py): `json.loads`, then the required-key check; a
decode error or missing keys fall through to the fallback, rendered here as
`Option.none`. A successful decode of a candidate is necessarily an object,
because the candidate starts with an opening brace. -/
def decodeCandidate (candidate : String) : Option (List (String × Json)) :=
  match jsonLoads candidate with
  | some v =>
    match v with
    | Json.obj pairs => if hasRequiredKeys pairs then some pairs else Option.none
    | _ => Option.none
  | Option.none => Option.none

/-- The successful extraction path of `_parse_query_analysis`: the regex scan
for a brace-balanced candidate followed by decode and key validation;
`Option.none` collects every failure mode of the method (no candidate, decode
error raised and caught, keys missing). -/
def extractedAnalysis (response : String) : Option (List (String × Json)) :=
  match braceSearch response.toList with
  | some candidate => decodeCandidate candidate
  | Option.none => Option.none

/-- Model of `QueryUnderstandingAgent._parse_query_analysis`: the successful
path returns the parsed object; every failure reaches the fallback return at
the end of the method. -/
def parseQueryAnalysis (response originalQuery : String) : List (String × Json) :=
  match extractedAnalysis response with
  | some pairs => pairs
  | Option.none => fallbackAnalysis response originalQuery

/-! ## Data Retrieval Stage and store gateway

Model of `DataRetrievalAgent` (data_retrieval_agent.py) and
`CosmosDBService.query_gold_data` (cosmos_service.py, lines 211-231). The
external store behavior is a parameter, and the calls actually issued to it
are collected in an explicit trace. -/

/-- A query call issued to the partitioned store. -/
structure StoreCall where
  query : String
  parameters : List (String × PyVal)
  crossPartition : Bool
deriving DecidableEq, Repr

/-- Behavior of the underlying `gold_container.query_items`: records or a
raised exception. -/
abbrev GoldEnv := String → List (String × PyVal) → Except String (List Item)

/-- Model of `CosmosDBService.query_gold_data`: log, execute the query with
`enable_cross_partition_query=True`, reraise any failure. -/
def queryGoldData (env : GoldEnv) (query : String) (params : List (String × PyVal)) :
    Except String (List Item) × List StoreCall :=
  (env query params, [{ query := query, parameters := params, crossPartition := true }])

/-- Attribute names bound on a `CosmosDBService` instance: the fields assigned
in `__init__` (cosmos_service.py, lines 17-26) together with the methods
defined on the class and the inherited logger property. Neither
`financial_data_container` nor `query_financial_data` is among them. -/
def cosmosServiceAttrs : List String :=
  ["client", "database", "conversations_container", "users_container", "gold_container",
   "logger",
   "_initialize", "create_conversation", "get_conversation", "update_conversation",
   "list_conversations", "create_user", "get_user", "get_user_by_email", "update_user",
   "query_gold_data", "_get_container", "bulk_create_items", "bulk_upsert_items",
   "bulk_delete_items"]

/-- Python attribute lookup on the service: an AttributeError for any name the
class does not define. -/
def pyGetattrCosmos (name : String) : Except String Unit :=
  if name ∈ cosmosServiceAttrs then Except.ok ()
  else Except.error ("AttributeError: CosmosDBService object has no attribute " ++ name)

/-- Model of `DataRetrievalAgent._query_financial_data` (lines 78-118): the
try-block reads `intent`, `entities` and `query_type` from the analysis and
then dereferences `self.cosmos_service.financial_data_container` (line 99), an
attribute the service does not define, so an AttributeError is raised and
caught by the handler at line 116, which returns an empty list. The hardcoded
`SELECT TOP 100 * FROM c ORDER BY c.timestamp DESC` query and the call to the
equally nonexistent `query_financial_data` method further down are never
reached, so no store call is issued for any analysis and any store behavior;
in particular the generated query carried by the analysis is never executed. -/
def queryFinancialDataAgent (_env : GoldEnv) (queryAnalysis : List (String × Json)) :
    List Item × List StoreCall :=
  let _intent := jLookup queryAnalysis "intent"
  let _entities := jLookup queryAnalysis "entities"
  let _queryType := jLookup queryAnalysis "query_type"
  match pyGetattrCosmos "financial_data_container" with
  | Except.error _ => ([], [])
  | Except.ok _ => ([], [])

/-- The `retrieved_data` dictionary assembled by `DataRetrievalAgent.execute`
(keys of the literal at lines 41-46, plus the optional error key set by the
handler at line 73). -/
structure RetrievedData where
  financial_data : List Item
  rag_context : String
  rag_sources : List String
  metadata : List (String × PyVal)
  error : Option String
deriving DecidableEq, Repr

/-- Behavior of the optional RAG collaborator: absent when the vector store is
not configured; otherwise a context/source provider that may raise. -/
abbrev RagEnv := Option (String → Except String (String × List String))

/-- Model of `DataRetrievalAgent.execute` (lines 26-76): initialize
`retrieved_data` with empty fields; inside the try-block, optionally fetch RAG
context, query financial data, and record count metadata; any exception sets
the error field and leaves the fields assigned so far. -/
def dataRetrievalExecute (env : GoldEnv) (rag : RagEnv)
    (queryAnalysis : List (String × Json)) (reformulated : String) :
    RetrievedData × List StoreCall :=
  match rag with
  | Option.none =>
    let (fd, calls) := queryFinancialDataAgent env queryAnalysis
    ({ financial_data := fd, rag_context := "", rag_sources := [],
       metadata := [("rag_enabled", PyVal.bool false),
                    ("financial_records_count", PyVal.int fd.length),
                    ("sources_count", PyVal.int 0)],
       error := Option.none }, calls)
  | some fetchContext =>
    match fetchContext reformulated with
    | Except.error e =>
      ({ financial_data := [], rag_context := "", rag_sources := [],
         metadata := [], error := some e }, [])
    | Except.ok (ctx, sources) =>
      let (fd, calls) := queryFinancialDataAgent env queryAnalysis
      ({ financial_data := fd, rag_context := ctx, rag_sources := sources,
         metadata := [("rag_enabled", PyVal.bool (ctx ≠ "")),
                      ("financial_records_count", PyVal.int fd.length),
                      ("sources_count", PyVal.int sources.length)],
         error := Option.none }, calls)

/-- Lookup in a metadata dictionary, `Option.none` meaning the key is absent. -/
def lookupMeta (md : List (String × PyVal)) (key : String) : Option PyVal :=
  match md with
  | [] => Option.none
  | (k, v) :: rest => if k = key then some v else lookupMeta rest key

/-! ## Orchestrator

Model of `AgentOrchestrator` (orchestrator.py): the LangGraph workflow built
by `_build_workflow` (lines 41-68) and the top-level catch of `process_query`
(lines 70-127). -/

structure WorkflowGraph where
  nodes : List String
  edges : List (String × String)
  entry : String
deriving Repr

/-- The LangGraph END sentinel. -/
def endNode : String := "__end__"

/-- The graph assembled by `_build_workflow`: four nodes, a static edge list
and a fixed entry point. -/
def buildWorkflow : WorkflowGraph :=
  { nodes := ["understand_query", "retrieve_data", "generate_response",
              "generate_recommendations"],
    edges := [("understand_query", "retrieve_data"),
              ("retrieve_data", "generate_response"),
              ("generate_response", "generate_recommendations"),
              ("generate_recommendations", endNode)],
    entry := "understand_query" }

/-- Successor nodes of a node under the static edge set. -/
def successors (g : WorkflowGraph) (n : String) : List String :=
  (g.edges.filter (fun e => e.1 == n)).map Prod.snd

/-- Walk the graph from a node, collecting the nodes executed in order; the
walk stops at the END sentinel, and at any node without a unique successor
(which would mean conditional branching or a dead end). -/
def traverseFrom (g : WorkflowGraph) : Nat → String → List String
  | 0, _ => []
  | fuel + 1, n =>
    if n = endNode then []
    else
      match successors g n with
      | [next] => n :: traverseFrom g fuel next
      | _ => [n]

/-- The node execution order of a compiled workflow. -/
def executionOrder (g : WorkflowGraph) : List String :=
  traverseFrom g (g.nodes.length + 1) g.entry

/-- A stage: the shared state dictionary in, the updated dictionary out, or a
raised exception. -/
abbrev StageFn := List (String × Json) → Except String (List (String × Json))

/-- Dispatch from node name to the agent registered for it by `add_node`. -/
def stageOf (u r g m : StageFn) (n : String) : StageFn :=
  if n = "understand_query" then u
  else if n = "retrieve_data" then r
  else if n = "generate_response" then g
  else if n = "generate_recommendations" then m
  else fun s => Except.ok s

/-- Model of `self.workflow.ainvoke(initial_state)`: run the stages in the
execution order of the compiled graph, threading the state; a raised exception
aborts the run. -/
def runWorkflow (u r g m : StageFn) (s0 : List (String × Json)) :
    Except String (List (String × Json)) :=
  (executionOrder buildWorkflow).foldlM (fun s n => stageOf u r g m n s) s0

/-- The initial state dictionary assembled by `process_query` (lines 92-101). -/
def initialState (userQuery userId conversationId : String)
    (history : List (String × String)) : List (String × Json) :=
  [("user_query", Json.str userQuery),
   ("user_id", Json.str userId),
   ("conversation_id", Json.str conversationId),
   ("conversation_history", Json.arr (history.map fun rc =>
      Json.obj [("role", Json.str rc.1), ("content", Json.str rc.2)])),
   ("query_analysis", Json.obj []),
   ("retrieved_data", Json.obj []),
   ("response", Json.str ""),
   ("suggestions", Json.arr [])]

/-- The result dictionary returned to the caller of `process_query`. -/
structure OrchestratorResult where
  response : Json
  suggestions : Json
  metadata : List (String × Json)
deriving Repr

/-- The result extraction at lines 108-116, still inside the try-block: the
chained `final_state.get("retrieved_data", {}).get("rag_sources", [])` raises
an AttributeError when a stage left a non-dictionary under retrieved_data. -/
def buildResult (final : List (String × Json)) : Except String OrchestratorResult :=
  match (jLookup final "retrieved_data").getD (Json.obj []) with
  | Json.obj rd =>
    Except.ok
      { response := (jLookup final "response").getD (Json.str ""),
        suggestions := (jLookup final "suggestions").getD (Json.arr []),
        metadata :=
          [("query_analysis", (jLookup final "query_analysis").getD (Json.obj [])),
           ("response_metadata", (jLookup final "response_metadata").getD (Json.obj [])),
           ("sources", (jLookup rd "rag_sources").getD (Json.arr []))] }
  | _ => Except.error "AttributeError: object has no attribute get"

/-- The fixed degraded result of the top-level except-handler
(orchestrator.py, lines 121-127). -/
def degradedResult (e : String) : OrchestratorResult :=
  { response := Json.str
      "I apologize, but I encountered an error processing your query. Please try again.",
    suggestions := Json.arr [],
    metadata := [("error", Json.str e)] }

/-- Model of `AgentOrchestrator.process_query`: build the initial state, run
the workflow and extract the result inside the try-block; any exception is
caught, logged and converted into the fixed degraded result. -/
def processQuery (u r g m : StageFn) (userQuery userId conversationId : String)
    (history : List (String × String)) : OrchestratorResult :=
  match (runWorkflow u r g m (initialState userQuery userId conversationId history)).bind
      buildResult with
  | Except.ok res => res
  | Except.error e => degradedResult e

/-! ## Fixtures for concrete evaluations -/

/-- The end-to-end scenario A query from the spec. -/
def scenarioAQuery : String :=
  "SELECT VALUE SUM(c.transactionAmount) FROM c WHERE c.pkType = @pkType AND c.pkFilter = @pkFilter"

/-- A query analysis carrying a non-empty generated query and parameters
(the spec's end-to-end scenario A). -/
def scenarioAAnalysis : List (String × Json) :=
  [("intent", Json.str "aggregate_amount"),
   ("query_type", Json.str "aggregation"),
   ("entities", Json.obj [("pkType", Json.str "repay:settlement"),
                          ("pkFilter", Json.str "20250824")]),
   ("cosmos_query", Json.str scenarioAQuery),
   ("query_parameters", Json.arr
     [Json.obj [("name", Json.str "@pkType"), ("value", Json.str "repay:settlement")],
      Json.obj [("name", Json.str "@pkFilter"), ("value", Json.str "20250824")]]),
   ("reformulated_query", Json.str "Total settlement amount for Aug 24 2025")]

/-- A store that would happily answer any query. -/
def answeringStore : GoldEnv := fun _ _ => Except.ok [[("value", PyVal.int 1250)]]

/-- A query analysis with an empty generated query (the fallback shape). -/
def emptyQueryAnalysis : List (String × Json) :=
  [("intent", Json.str "general_query"),
   ("query_type", Json.str "informational"),
   ("entities", Json.obj []),
   ("cosmos_query", Json.str ""),
   ("query_parameters", Json.arr []),
   ("reformulated_query", Json.str "what happened")]

/-- A stage that raises an unexpected exception. -/
def raisingStage : StageFn := fun _ => Except.error "unexpected stage failure"

/-- A stage that returns the state unchanged. -/
def okStage : StageFn := fun s => Except.ok s

/-! ## C9 -/

/-- C9: every orchestrator invocation executes the four stages in the fixed
order Understand, Retrieve, Respond, Recommend; the edge set is static, every
node has exactly one outgoing edge (no conditional branch selects between
stages), and no stage is skipped or repeated. -/
theorem C9_workflow_fixed_linear_order :
    executionOrder buildWorkflow =
      ["understand_query", "retrieve_data", "generate_response",
       "generate_recommendations"] ∧
    (∀ n ∈ buildWorkflow.nodes, (successors buildWorkflow n).length = 1) ∧
    (executionOrder buildWorkflow).Nodup ∧
    buildWorkflow.nodes.Nodup := by
  refine ⟨by decide, by decide, by decide, by decide⟩

/-! ## C4 -/

/-- C4: whenever a stage raises an exception that escapes its own handling,
so that the workflow run aborts with that exception, `process_query` still
returns a well-formed result: the fixed apology answer, an empty suggestions
list, and metadata containing the error; the exception is not propagated. -/
theorem C4_top_level_catch (u r g m : StageFn) (uq uid cid : String)
    (history : List (String × String)) (e : String)
    (h : runWorkflow u r g m (initialState uq uid cid history) = Except.error e) :
    processQuery u r g m uq uid cid history = degradedResult e ∧
    (processQuery u r g m uq uid cid history).response = Json.str
      "I apologize, but I encountered an error processing your query. Please try again." ∧
    (processQuery u r g m uq uid cid history).suggestions = Json.arr [] ∧
    (processQuery u r g m uq uid cid history).metadata = [("error", Json.str e)] := by
  unfold processQuery
  rw [h]
  exact ⟨rfl, rfl, rfl, rfl⟩

/-- Witness for C4: a concrete raising first stage. -/
theorem C4_top_level_catch_witness :
    processQuery raisingStage okStage okStage okStage "q" "u1" "c1" [] =
      degradedResult "unexpected stage failure" ∧
    (processQuery raisingStage okStage okStage okStage "q" "u1" "c1" []).response = Json.str
      "I apologize, but I encountered an error processing your query. Please try again." ∧
    (processQuery raisingStage okStage okStage okStage "q" "u1" "c1" []).suggestions =
      Json.arr [] ∧
    (processQuery raisingStage okStage okStage okStage "q" "u1" "c1" []).metadata =
      [("error", Json.str "unexpected stage failure")] :=
  C4_top_level_catch raisingStage okStage okStage okStage "q" "u1" "c1" []
    "unexpected stage failure" rfl

/-! ## C1 -/

/-- C1: the claim says that for a state whose analysis carries a non-empty
generated query and parameters, the Data Retrieval Stage executes exactly that
query against the store with cross-partition scanning, passing the parameters
through unchanged. The code does not: at the scenario A analysis — non-empty
generated query, two parameters, a store ready to answer — the retrieval stage
issues NO store call at all and returns an empty record list, because
`_query_financial_data` dereferences the nonexistent
`financial_data_container` attribute and its except-handler swallows the
AttributeError. -/
theorem C1_retrieval_never_executes_generated_query :
    jLookup scenarioAAnalysis "cosmos_query" = some (Json.str scenarioAQuery) ∧
    scenarioAQuery ≠ "" ∧
    ¬ ("financial_data_container" ∈ cosmosServiceAttrs) ∧
    ¬ ("query_financial_data" ∈ cosmosServiceAttrs) ∧
    (dataRetrievalExecute answeringStore Option.none scenarioAAnalysis
      "Total settlement amount for Aug 24 2025").2 = [] ∧
    (dataRetrievalExecute answeringStore Option.none scenarioAAnalysis
      "Total settlement amount for Aug 24 2025").1.financial_data = [] :=
  ⟨rfl, by decide, by decide, by decide, rfl, rfl⟩

/-! ## C2 -/

/-- C2 counterexample: at a state whose generated query is empty, the
retrieval metadata does NOT carry a `query_executed` field at all (let alone
one set to false): the metadata holds only the three count fields. -/
theorem C2_no_query_executed_field_counterexample :
    jLookup emptyQueryAnalysis "cosmos_query" = some (Json.str "") ∧
    lookupMeta (dataRetrievalExecute answeringStore Option.none emptyQueryAnalysis
      "what happened").1.metadata "query_executed" = Option.none :=
  ⟨rfl, rfl⟩

/-- C2 amended: for every pipeline state whose generated query is empty (the
code in fact never reads the query), the Data Retrieval Stage returns an
empty financial-record list and issues no call to the store, but its
metadata contains no `query_executed` field. -/
theorem C2_empty_query_no_store_call (env : GoldEnv) (rag : RagEnv)
    (qa : List (String × Json)) (ref : String)
    (h : jLookup qa "cosmos_query" = some (Json.str "")) :
    (dataRetrievalExecute env rag qa ref).1.financial_data = [] ∧
    (dataRetrievalExecute env rag qa ref).2 = [] ∧
    lookupMeta (dataRetrievalExecute env rag qa ref).1.metadata "query_executed" =
      Option.none := by
  cases rag with
  | none => exact ⟨rfl, rfl, rfl⟩
  | some fetchContext =>
    cases hf : fetchContext ref with
    | error e =>
      simp only [dataRetrievalExecute, hf]
      refine ⟨?_, ?_, ?_⟩ <;> trivial
    | ok p =>
      obtain ⟨ctx, sources⟩ := p
      simp only [dataRetrievalExecute, hf]
      refine ⟨?_, ?_, ?_⟩ <;> trivial

/-- Witness for C2 amended: the concrete empty-query analysis against a live
store. -/
theorem C2_empty_query_no_store_call_witness :
    jLookup emptyQueryAnalysis "cosmos_query" = some (Json.str "") ∧
    (dataRetrievalExecute answeringStore Option.none emptyQueryAnalysis
      "what happened").1.financial_data = [] ∧
    (dataRetrievalExecute answeringStore Option.none emptyQueryAnalysis
      "what happened").2 = [] ∧
    lookupMeta (dataRetrievalExecute answeringStore Option.none emptyQueryAnalysis
      "what happened").1.metadata "query_executed" = Option.none :=
  ⟨rfl, C2_empty_query_no_store_call answeringStore Option.none emptyQueryAnalysis
    "what happened" rfl⟩

/-! ## C3 -/

/-- C3: for every completion text from which no JSON object with the four
required keys can be extracted (the scan finds no candidate, the decode fails,
or a required key is missing), the parser returns — it is a total function,
never raising — the fallback analysis: empty generated query, empty parameter
list, reformulated query equal to the original question, and a parse_error
diagnostic field. -/
theorem C3_parse_failure_returns_fallback (response question : String)
    (h : extractedAnalysis response = Option.none) :
    parseQueryAnalysis response question = fallbackAnalysis response question ∧
    jLookup (parseQueryAnalysis response question) "cosmos_query" =
      some (Json.str "") ∧
    jLookup (parseQueryAnalysis response question) "query_parameters" =
      some (Json.arr []) ∧
    jLookup (parseQueryAnalysis response question) "reformulated_query" =
      some (Json.str question) ∧
    (jLookup (parseQueryAnalysis response question) "parse_error").isSome = true := by
  have hp : parseQueryAnalysis response question = fallbackAnalysis response question := by
    unfold parseQueryAnalysis
    rw [h]
  rw [hp]
  exact ⟨rfl, rfl, rfl, rfl, rfl⟩

/-- Witness for C3: a concrete completion with no JSON at all. -/
theorem C3_parse_failure_returns_fallback_witness :
    extractedAnalysis "I am sorry, I could not generate a query for that." =
      Option.none ∧
    parseQueryAnalysis "I am sorry, I could not generate a query for that."
        "what happened" =
      fallbackAnalysis "I am sorry, I could not generate a query for that."
        "what happened" ∧
    jLookup (parseQueryAnalysis "I am sorry, I could not generate a query for that."
        "what happened") "cosmos_query" = some (Json.str "") ∧
    jLookup (parseQueryAnalysis "I am sorry, I could not generate a query for that."
        "what happened") "reformulated_query" = some (Json.str "what happened") :=
  ⟨rfl,
   (C3_parse_failure_returns_fallback
     "I am sorry, I could not generate a query for that." "what happened" rfl).1,
   (C3_parse_failure_returns_fallback
     "I am sorry, I could not generate a query for that." "what happened" rfl).2.1,
   (C3_parse_failure_returns_fallback
     "I am sorry, I could not generate a query for that." "what happened" rfl).2.2.2.1⟩

/-! ## C8 -/

/-- A completion whose JSON object has the four required keys but an empty
generated query. -/
def emptyQueryJson : String :=
  "\x7b\"intent\": \"general\", \"query_type\": \"informational\", \"entities\": \x7b\x7d, \"cosmos_query\": \"\"\x7d"

/-- The object parsed from `emptyQueryJson`. -/
def emptyQueryPairs : List (String × Json) :=
  [("intent", Json.str "general"),
   ("query_type", Json.str "informational"),
   ("entities", Json.obj []),
   ("cosmos_query", Json.str "")]

/-- C8 counterexample: a completion text that is a well-formed JSON object
with the four required keys, on which the parser succeeds (returning the
parsed object, not the fallback) — yet the result's generated query is the
EMPTY string, refuting the claim's non-emptiness conclusion: presence of the
`cosmos_query` key is validated, its value is not. -/
theorem C8_empty_generated_query_counterexample :
    hasRequiredKeys emptyQueryPairs = true ∧
    extractedAnalysis emptyQueryJson = some emptyQueryPairs ∧
    parseQueryAnalysis emptyQueryJson "orig" = emptyQueryPairs ∧
    jLookup (parseQueryAnalysis emptyQueryJson "orig") "cosmos_query" =
      some (Json.str "") :=
  ⟨rfl, rfl, rfl, rfl⟩

/-- C8 amended: for every completion text from which the stage's scanner
extracts a well-formed JSON object containing the four required keys, parsing
succeeds and returns exactly that object (not the fallback); the generated
query equals the object's cosmos_query value, hence is non-empty exactly when
that value is non-empty. -/
theorem C8_wellformed_parse_succeeds (response question : String)
    (pairs : List (String × Json))
    (h : extractedAnalysis response = some pairs) :
    parseQueryAnalysis response question = pairs ∧
    hasRequiredKeys pairs = true ∧
    jLookup (parseQueryAnalysis response question) "cosmos_query" =
      jLookup pairs "cosmos_query" := by
  have hkeys : hasRequiredKeys pairs = true := by
    unfold extractedAnalysis at h
    split at h
    · unfold decodeCandidate at h
      split at h
      · split at h
        · split at h
          · rename_i hk
            cases h
            exact hk
          · cases h
        · cases h
      · cases h
    · cases h
  have hp : parseQueryAnalysis response question = pairs := by
    unfold parseQueryAnalysis
    rw [h]
  rw [hp]
  exact ⟨rfl, hkeys, rfl⟩

/-- A completion with surrounding prose and a non-empty generated query. -/
def goodCompletion : String :=
  "Here is the analysis: \x7b\"intent\": \"get_transaction_volume\", \"query_type\": \"aggregation\", \"entities\": \x7b\"pkType\": \"repay:settlement\"\x7d, \"cosmos_query\": \"SELECT VALUE COUNT(1) FROM c WHERE c.pkType = @pkType\"\x7d Let me know."

/-- The object parsed from `goodCompletion`. -/
def goodCompletionPairs : List (String × Json) :=
  [("intent", Json.str "get_transaction_volume"),
   ("query_type", Json.str "aggregation"),
   ("entities", Json.obj [("pkType", Json.str "repay:settlement")]),
   ("cosmos_query", Json.str "SELECT VALUE COUNT(1) FROM c WHERE c.pkType = @pkType")]

set_option maxRecDepth 16384 in
/-- Witness for C8 amended: a concrete well-formed completion parses to its
object and keeps its non-empty generated query. -/
theorem C8_wellformed_parse_succeeds_witness :
    parseQueryAnalysis goodCompletion "orig" = goodCompletionPairs ∧
    hasRequiredKeys goodCompletionPairs = true ∧
    jLookup (parseQueryAnalysis goodCompletion "orig") "cosmos_query" =
      jLookup goodCompletionPairs "cosmos_query" :=
  C8_wellformed_parse_succeeds goodCompletion "orig" goodCompletionPairs rfl

/-! ## C7 -/

/-- An item with both hierarchical partition-key fields. -/
def itemWithPK : Item :=
  [("id", PyVal.str "1"), ("pkType", PyVal.str "repay:settlement"),
   ("pkFilter", PyVal.str "20250824")]

/-- An item missing the pkFilter partition-key field. -/
def itemMissingPKFilter : Item :=
  [("id", PyVal.str "2"), ("pkType", PyVal.str "repay:settlement")]

/-- A batch behavior that reports success for two operations. -/
def okBatchEnv : BatchEnv := fun _ _ => Except.ok [201, 201]

/-- C7: the claim says an item missing a required hierarchical partition-key
field is dropped and appears in no batch sent to the store. The grouping does
drop it — but when the remaining items land in exactly ONE partition,
`bulk_create_items` passes the ORIGINAL item list (not the grouped one) to the
single-partition atomic batch, so the supposedly dropped item IS sent to the
store, inside a batch whose partition key its fields do not match. -/
theorem C7_dropped_item_still_batched :
    computePK "pkType,pkFilter" itemMissingPKFilter = Option.none ∧
    groupByPartitionKey [itemWithPK, itemMissingPKFilter] "pkType,pkFilter" =
      [(PartitionKeyVal.tuple [PyVal.str "repay:settlement", PyVal.str "20250824"],
        [itemWithPK])] ∧
    bulkCreateItems okBatchEnv [itemWithPK, itemMissingPKFilter] "pkType,pkFilter" =
      Except.ok ([itemWithPK, itemMissingPKFilter],
        [(PartitionKeyVal.tuple [PyVal.str "repay:settlement", PyVal.str "20250824"],
          [BatchOp.create itemWithPK, BatchOp.create itemMissingPKFilter])]) :=
  ⟨rfl, rfl, rfl⟩

/-! ## Supporting lemmas for the bulk operations -/

/-- Enough fuel: the chunk count is the ceiling of the length over 100. -/
lemma chunkAux_length {α : Type} :
    ∀ (n : Nat) (xs : List α), xs.length ≤ n →
      (chunkAux n xs).length = (xs.length + 99) / 100 := by
  intro n
  induction n with
  | zero =>
    intro xs hx
    have : xs = [] := List.eq_nil_of_length_eq_zero (Nat.le_zero.mp hx)
    subst this
    simp [chunkAux]
  | succ n ih =>
    intro xs hx
    cases xs with
    | nil => simp [chunkAux]
    | cons x rest =>
      have hdrop : ((x :: rest).drop MAX_BATCH_SIZE).length = rest.length + 1 - 100 := by
        simp [MAX_BATCH_SIZE]
      have hle : ((x :: rest).drop MAX_BATCH_SIZE).length ≤ n := by
        rw [hdrop]
        simp at hx
        omega
      show ((x :: rest).take MAX_BATCH_SIZE :: chunkAux n ((x :: rest).drop MAX_BATCH_SIZE)).length
          = ((x :: rest).length + 99) / 100
      rw [List.length_cons, ih _ hle, hdrop]
      simp
      omega

/-- Every chunk holds at most 100 items. -/
lemma chunkAux_mem_length {α : Type} :
    ∀ (n : Nat) (xs : List α) (b : List α), b ∈ chunkAux n xs → b.length ≤ 100 := by
  intro n
  induction n with
  | zero =>
    intro xs b hb
    cases hb
  | succ n ih =>
    intro xs b hb
    cases xs with
    | nil => cases hb
    | cons x rest =>
      rcases List.mem_cons.mp hb with h | h
      · subst h
        calc ((x :: rest).take MAX_BATCH_SIZE).length
            ≤ MAX_BATCH_SIZE := by simp [MAX_BATCH_SIZE]
          _ ≤ 100 := by simp [MAX_BATCH_SIZE]
      · exact ih _ b h

/-- The trace of a chunk fold: one call per chunk against the given key,
whatever the store answers. -/
lemma insertChunk_foldl_trace (env : BatchEnv) (pk : PartitionKeyVal) :
    ∀ (chunks : List (List Item)) (acc : List Item × BatchTrace),
      (chunks.foldl (insertChunkStep env pk) acc).2 =
        acc.2 ++ chunks.map (fun b => (pk, b.map BatchOp.create)) := by
  intro chunks
  induction chunks with
  | nil => intro acc; simp
  | cons b bs ih =>
    intro acc
    rw [List.foldl_cons, ih]
    have hstep : (insertChunkStep env pk acc b).2 = acc.2 ++ [(pk, b.map BatchOp.create)] := by
      unfold insertChunkStep
      cases env pk (b.map BatchOp.create) with
      | ok st => rfl
      | error e => rfl
    rw [hstep]
    simp

/-- The trace of a single-partition insert: exactly the chunks, in order, each
against the given partition key. -/
lemma insertSinglePartitionBatch_trace (env : BatchEnv) (pk : PartitionKeyVal)
    (items : List Item) :
    (insertSinglePartitionBatch env pk items).2 =
      (chunk100 items).map (fun b => (pk, b.map BatchOp.create)) := by
  unfold insertSinglePartitionBatch
  rw [insertChunk_foldl_trace]
  simp

/-- Folding the grouping step over elements that all carry the same key
extends that key's single group in order. -/
lemma groupFold_allSame {α β : Type} (key : α → Option PartitionKeyVal)
    (val : α → β) (pk : PartitionKeyVal) :
    ∀ (xs : List α) (pre : List β), (∀ x ∈ xs, key x = some pk) →
      xs.foldl (groupStep key val) [(pk, pre)] = [(pk, pre ++ xs.map val)] := by
  intro xs
  induction xs with
  | nil => intro pre _; simp
  | cons x rest ih =>
    intro pre hall
    rw [List.foldl_cons]
    have hx : key x = some pk := hall x (by simp)
    have hstep : groupStep key val [(pk, pre)] x = [(pk, pre ++ [val x])] := by
      unfold groupStep
      rw [hx]
      unfold addToGroup
      simp
    rw [hstep, ih (pre ++ [val x]) (fun y hy => hall y (by simp [hy]))]
    simp

/-- Grouping a non-empty list whose elements all carry one key yields that
single group holding every element. -/
lemma groupByKeyVal_allSame {α β : Type} (key : α → Option PartitionKeyVal)
    (val : α → β) (pk : PartitionKeyVal) (xs : List α)
    (hne : xs ≠ []) (hall : ∀ x ∈ xs, key x = some pk) :
    groupByKeyVal key val xs = [(pk, xs.map val)] := by
  cases xs with
  | nil => exact absurd rfl hne
  | cons x rest =>
    unfold groupByKeyVal
    rw [List.foldl_cons]
    have hx : key x = some pk := hall x (by simp)
    have hstep : groupStep key val [] x = [(pk, [val x])] := by
      unfold groupStep
      rw [hx]
      rfl
    rw [hstep, groupFold_allSame key val pk rest [val x] (fun y hy => hall y (by simp [hy]))]
    simp

/-! ## C5 -/

/-- C5: for every non-empty item list whose members all carry the same
partition-key value, bulk create issues exactly ceil(N/100) batch calls to the
store (whatever the store answers), each against that single partition key and
each containing at most 100 operations. -/
theorem C5_single_partition_chunked_batches (env : BatchEnv) (path : String)
    (items : List Item) (pk : PartitionKeyVal)
    (hne : items ≠ []) (hall : ∀ it ∈ items, computePK path it = some pk) :
    ∃ created trace,
      bulkCreateItems env items path = Except.ok (created, trace) ∧
      trace.length = (items.length + 99) / 100 ∧
      ∀ call ∈ trace, call.1 = pk ∧ call.2.length ≤ 100 := by
  have hgroups : groupByPartitionKey items path = [(pk, items)] := by
    have h := groupByKeyVal_allSame (computePK path) id pk items hne hall
    simpa using h
  refine ⟨(insertSinglePartitionBatch env pk items).1,
          (insertSinglePartitionBatch env pk items).2, ?_, ?_, ?_⟩
  · unfold bulkCreateItems
    rw [if_neg hne]
    simp [hgroups]
  · rw [insertSinglePartitionBatch_trace]
    simp only [List.length_map]
    unfold chunk100
    exact chunkAux_length items.length items le_rfl
  · intro call hcall
    rw [insertSinglePartitionBatch_trace] at hcall
    rcases List.mem_map.mp hcall with ⟨b, hb, rfl⟩
    refine ⟨rfl, ?_⟩
    simpa using chunkAux_mem_length items.length items b hb

/-- Two items sharing the hierarchical partition key of the gold container. -/
def goldItemA : Item :=
  [("id", PyVal.str "a1"), ("pkType", PyVal.str "repay:settlement"),
   ("pkFilter", PyVal.int 20250824)]

/-- A second item of the same partition. -/
def goldItemB : Item :=
  [("id", PyVal.str "a2"), ("pkType", PyVal.str "repay:settlement"),
   ("pkFilter", PyVal.int 20250824)]

/-- Witness for C5: two items of one partition produce one batch call. -/
theorem C5_single_partition_chunked_batches_witness :
    ∃ created trace,
      bulkCreateItems okBatchEnv [goldItemA, goldItemB] "pkType,pkFilter" =
        Except.ok (created, trace) ∧
      trace.length = ([goldItemA, goldItemB].length + 99) / 100 ∧
      ∀ call ∈ trace,
        call.1 = PartitionKeyVal.tuple [PyVal.str "repay:settlement", PyVal.int 20250824] ∧
        call.2.length ≤ 100 :=
  C5_single_partition_chunked_batches okBatchEnv "pkType,pkFilter"
    [goldItemA, goldItemB]
    (PartitionKeyVal.tuple [PyVal.str "repay:settlement", PyVal.int 20250824])
    (by decide) (by decide)

/-! ## Supporting lemmas for partition-failure isolation (C6) -/

/-- Remove the group of one partition key. -/
def removeKey {β : Type} (pk : PartitionKeyVal) :
    List (PartitionKeyVal × List β) → List (PartitionKeyVal × List β)
  | [] => []
  | g :: rest => if g.1 = pk then removeKey pk rest else g :: removeKey pk rest

/-- Adding under a different key commutes with removing a key. -/
lemma removeKey_addToGroup_ne {β : Type} (pk k : PartitionKeyVal) (x : β)
    (h : k ≠ pk) :
    ∀ gs, removeKey pk (addToGroup gs k x) = addToGroup (removeKey pk gs) k x := by
  intro gs
  induction gs with
  | nil => simp [addToGroup, removeKey, h]
  | cons g rest ih =>
    obtain ⟨gk, gxs⟩ := g
    by_cases hgk : gk = k
    · subst hgk
      simp [addToGroup, removeKey, h]
    · by_cases hgp : gk = pk
      · subst hgp
        simp [addToGroup, removeKey, hgk, ih]
      · simp [addToGroup, removeKey, hgk, hgp, ih]

/-- Adding under the removed key is invisible after removal. -/
lemma removeKey_addToGroup_eq {β : Type} (pk : PartitionKeyVal) (x : β) :
    ∀ gs, removeKey pk (addToGroup gs pk x) = removeKey pk gs := by
  intro gs
  induction gs with
  | nil => simp [addToGroup, removeKey]
  | cons g rest ih =>
    obtain ⟨gk, gxs⟩ := g
    by_cases hgp : gk = pk
    · subst hgp
      simp [addToGroup, removeKey]
    · simp [addToGroup, removeKey, hgp, ih]

/-- Grouping the elements whose key is not `pk` gives the grouping of all
elements with the `pk` group removed. -/
lemma groupFold_filter {α β : Type} (key : α → Option PartitionKeyVal)
    (val : α → β) (pk : PartitionKeyVal) :
    ∀ (xs : List α) (acc : List (PartitionKeyVal × List β)),
      (xs.filter (fun x => !decide (key x = some pk))).foldl
          (groupStep key val) (removeKey pk acc) =
        removeKey pk (xs.foldl (groupStep key val) acc) := by
  intro xs
  induction xs with
  | nil => intro acc; rfl
  | cons x rest ih =>
    intro acc
    cases hx : key x with
    | none =>
      have hpred : (!decide (key x = some pk)) = true := by simp [hx]
      rw [List.filter_cons, if_pos hpred, List.foldl_cons, List.foldl_cons]
      have hskip : groupStep key val (removeKey pk acc) x = removeKey pk acc := by
        unfold groupStep; rw [hx]
      have hskip2 : groupStep key val acc x = acc := by
        unfold groupStep; rw [hx]
      rw [hskip, hskip2, ih]
    | some k =>
      by_cases hk : k = pk
      · subst hk
        have hpred : (!decide (key x = some k)) = false := by simp [hx]
        rw [List.filter_cons, if_neg (by simp [hpred]), List.foldl_cons]
        have hstep : groupStep key val acc x = addToGroup acc k (val x) := by
          unfold groupStep; rw [hx]
        rw [hstep, ← removeKey_addToGroup_eq k (val x) acc, ih]
      · have hpred : (!decide (key x = some pk)) = true := by simp [hx, hk]
        rw [List.filter_cons, if_pos hpred, List.foldl_cons, List.foldl_cons]
        have hstep : groupStep key val acc x = addToGroup acc k (val x) := by
          unfold groupStep; rw [hx]
        have hstep2 : groupStep key val (removeKey pk acc) x =
            addToGroup (removeKey pk acc) k (val x) := by
          unfold groupStep; rw [hx]
        rw [hstep, hstep2, ← removeKey_addToGroup_ne pk k (val x) hk acc, ih]

/-- Filtered grouping at the top level. -/
lemma groupByKeyVal_filter {α β : Type} (key : α → Option PartitionKeyVal)
    (val : α → β) (pk : PartitionKeyVal) (xs : List α) :
    groupByKeyVal key val (xs.filter (fun x => !decide (key x = some pk))) =
      removeKey pk (groupByKeyVal key val xs) := by
  unfold groupByKeyVal
  have h := groupFold_filter key val pk xs []
  simpa [removeKey] using h

/-- First component of the upsert fold: the per-partition successes flattened
in group order past the accumulator. -/
lemma upsertFold_fst (env : BatchEnv) :
    ∀ (gs : List (PartitionKeyVal × List Item)) (a : List Item) (t : BatchTrace),
      (gs.foldl (upsertFoldStep env) (a, t)).1 =
        a ++ gs.flatMap (fun g => (upsertPartitionBatch env g.1 g.2).1) := by
  intro gs
  induction gs with
  | nil => intro a t; simp
  | cons g rest ih =>
    intro a t
    rw [List.foldl_cons]
    show (rest.foldl (upsertFoldStep env)
        (a ++ (upsertPartitionBatch env g.1 g.2).1,
         t ++ (upsertPartitionBatch env g.1 g.2).2)).1 = _
    rw [ih]
    simp

/-- First component of the delete fold: the per-partition counts summed past
the accumulator. -/
lemma deleteFold_fst (env : BatchEnv) :
    ∀ (gs : List (PartitionKeyVal × List PyVal)) (a : Nat) (t : BatchTrace),
      (gs.foldl (deleteFoldStep env) (a, t)).1 =
        a + (gs.map (fun g => (deletePartitionBatch env g.1 g.2).1)).sum := by
  intro gs
  induction gs with
  | nil => intro a t; simp
  | cons g rest ih =>
    intro a t
    rw [List.foldl_cons]
    show (rest.foldl (deleteFoldStep env)
        (a + (deletePartitionBatch env g.1 g.2).1,
         t ++ (deletePartitionBatch env g.1 g.2).2)).1 = _
    rw [ih]
    simp
    omega

/-- Groups of the removed key contribute nothing to a flattening whose
per-group function vanishes on that key. -/
lemma bind_removeKey {β δ : Type} (pk : PartitionKeyVal)
    (f : (PartitionKeyVal × List β) → List δ)
    (hf : ∀ g, g.1 = pk → f g = []) :
    ∀ gs, gs.flatMap f = (removeKey pk gs).flatMap f := by
  intro gs
  induction gs with
  | nil => rfl
  | cons g rest ih =>
    by_cases hg : g.1 = pk
    · show f g ++ rest.flatMap f = _
      rw [hf g hg, removeKey, if_pos hg, ih]
      rfl
    · show f g ++ rest.flatMap f = _
      rw [removeKey, if_neg hg, ih]
      rfl

/-- Groups of the removed key contribute nothing to a sum whose per-group
function vanishes on that key. -/
lemma sum_removeKey {β : Type} (pk : PartitionKeyVal)
    (f : (PartitionKeyVal × List β) → Nat)
    (hf : ∀ g, g.1 = pk → f g = 0) :
    ∀ gs, (gs.map f).sum = ((removeKey pk gs).map f).sum := by
  intro gs
  induction gs with
  | nil => rfl
  | cons g rest ih =>
    by_cases hg : g.1 = pk
    · show f g + (rest.map f).sum = _
      rw [hf g hg, removeKey, if_pos hg, ih]
      omega
    · show f g + (rest.map f).sum = _
      rw [removeKey, if_neg hg, ih]
      rfl

/-! ## C6 -/

/-- C6: for bulk upsert and bulk delete over items spanning multiple
partitions, a forced exception on one partition's batch call contributes zero
successes for that partition while every sibling partition's successes are
still counted and returned — the result equals the result of running the
operation without the failing partition's items — and the partial failure
never makes the operation raise. -/
theorem C6_failed_partition_isolated (env : BatchEnv) (path : String)
    (pk : PartitionKeyVal) (e : String)
    (items : List Item) (pairs : List (PyVal × PartitionKeyVal))
    (henv : ∀ ops, env pk ops = Except.error e)
    (hitems : items ≠ []) (hpairs : pairs ≠ [])
    (hsibU : ∃ it ∈ items, ¬ computePK path it = some pk)
    (hsibD : ∃ p ∈ pairs, ¬ p.2 = pk) :
    (∃ r, bulkUpsertItems env items path = Except.ok r) ∧
    (∃ r, bulkDeleteItems env pairs = Except.ok r) ∧
    Except.map Prod.fst (bulkUpsertItems env items path) =
      Except.map Prod.fst (bulkUpsertItems env
        (items.filter (fun it => !decide (computePK path it = some pk))) path) ∧
    Except.map Prod.fst (bulkDeleteItems env pairs) =
      Except.map Prod.fst (bulkDeleteItems env
        (pairs.filter (fun p => !decide (p.2 = pk)))) := by
  obtain ⟨itW, hitW, hitWpk⟩ := hsibU
  have hfU : items.filter (fun it => !decide (computePK path it = some pk)) ≠ [] :=
    List.ne_nil_of_mem (List.mem_filter.mpr ⟨hitW, by simpa using hitWpk⟩)
  obtain ⟨pW, hpW, hpWpk⟩ := hsibD
  have hfD : pairs.filter (fun p => !decide (p.2 = pk)) ≠ [] :=
    List.ne_nil_of_mem (List.mem_filter.mpr ⟨hpW, by simpa using hpWpk⟩)
  have hupz : ∀ g : PartitionKeyVal × List Item, g.1 = pk →
      (upsertPartitionBatch env g.1 g.2).1 = [] := by
    intro g hg
    unfold upsertPartitionBatch
    rw [hg]
    simp only [henv]
  have hdelz : ∀ g : PartitionKeyVal × List PyVal, g.1 = pk →
      (deletePartitionBatch env g.1 g.2).1 = 0 := by
    intro g hg
    unfold deletePartitionBatch
    rw [hg]
    simp only [henv]
  have hfilter_eq : pairs.filter
        (fun p => !decide ((some p.2 : Option PartitionKeyVal) = some pk)) =
      pairs.filter (fun p => !decide (p.2 = pk)) := by
    apply List.filter_congr
    intro p _
    have hd : (decide ((some p.2 : Option PartitionKeyVal) = some pk)) =
        decide (p.2 = pk) := by
      rw [decide_eq_decide]
      simp
    rw [hd]
  have hgfD : groupByKeyVal (fun p : PyVal × PartitionKeyVal => some p.2) Prod.fst
      (pairs.filter (fun p => !decide (p.2 = pk))) =
      removeKey pk (groupByKeyVal (fun p : PyVal × PartitionKeyVal => some p.2)
        Prod.fst pairs) := by
    have h := groupByKeyVal_filter
      (fun p : PyVal × PartitionKeyVal => some p.2) Prod.fst pk pairs
    rw [← hfilter_eq]
    exact h
  refine ⟨⟨(groupByPartitionKey items path).foldl (upsertFoldStep env) ([], []), ?_⟩,
          ⟨(groupByKeyVal (fun p : PyVal × PartitionKeyVal => some p.2) Prod.fst
              pairs).foldl (deleteFoldStep env) (0, []), ?_⟩, ?_, ?_⟩
  · unfold bulkUpsertItems
    rw [if_neg hitems]
  · unfold bulkDeleteItems
    rw [if_neg hpairs]
  · unfold bulkUpsertItems
    rw [if_neg hitems, if_neg hfU]
    have h1 := upsertFold_fst env (groupByPartitionKey items path) [] []
    have h2 := upsertFold_fst env
      (groupByPartitionKey
        (items.filter (fun it => !decide (computePK path it = some pk))) path) [] []
    simp only [List.nil_append] at h1 h2
    simp only [Except.map]
    rw [h1, h2]
    have hgfU : groupByPartitionKey
        (items.filter (fun it => !decide (computePK path it = some pk))) path =
        removeKey pk (groupByPartitionKey items path) :=
      groupByKeyVal_filter (computePK path) id pk items
    rw [hgfU, ← bind_removeKey pk _ hupz]
  · unfold bulkDeleteItems
    rw [if_neg hpairs, if_neg hfD]
    have h1 := deleteFold_fst env
      (groupByKeyVal (fun p : PyVal × PartitionKeyVal => some p.2) Prod.fst pairs) 0 []
    have h2 := deleteFold_fst env
      (groupByKeyVal (fun p : PyVal × PartitionKeyVal => some p.2) Prod.fst
        (pairs.filter (fun p => !decide (p.2 = pk)))) 0 []
    simp only [Nat.zero_add] at h1 h2
    simp only [Except.map]
    rw [h1, h2, hgfD, ← sum_removeKey pk _ hdelz]

/-- The partition key whose batch call is forced to fail in the witness. -/
def pkBad : PartitionKeyVal := PartitionKeyVal.single (PyVal.str "p-bad")

/-- A store that raises on the bad partition and succeeds elsewhere. -/
def failingEnv : BatchEnv := fun k ops =>
  if k = pkBad then Except.error "forced batch failure"
  else Except.ok (ops.map fun _ => 201)

/-- An item of a healthy partition. -/
def upItemGood : Item := [("id", PyVal.str "g1"), ("partitionKey", PyVal.str "p-good")]

/-- An item of the failing partition. -/
def upItemBad : Item := [("id", PyVal.str "b1"), ("partitionKey", PyVal.str "p-bad")]

/-- Deletion pairs spanning a healthy and the failing partition. -/
def delPairs : List (PyVal × PartitionKeyVal) :=
  [(PyVal.str "d1", PartitionKeyVal.single (PyVal.str "p-good")),
   (PyVal.str "d2", pkBad)]

/-- Witness for C6: concrete two-partition upsert and delete with one
partition forced to fail. -/
theorem C6_failed_partition_isolated_witness :
    (∃ r, bulkUpsertItems failingEnv [upItemGood, upItemBad] "partitionKey" =
      Except.ok r) ∧
    (∃ r, bulkDeleteItems failingEnv delPairs = Except.ok r) ∧
    Except.map Prod.fst (bulkUpsertItems failingEnv [upItemGood, upItemBad]
        "partitionKey") =
      Except.map Prod.fst (bulkUpsertItems failingEnv
        ([upItemGood, upItemBad].filter
          (fun it => !decide (computePK "partitionKey" it = some pkBad)))
        "partitionKey") ∧
    Except.map Prod.fst (bulkDeleteItems failingEnv delPairs) =
      Except.map Prod.fst (bulkDeleteItems failingEnv
        (delPairs.filter (fun p => !decide (p.2 = pkBad)))) :=
  C6_failed_partition_isolated failingEnv "partitionKey" pkBad
    "forced batch failure" [upItemGood, upItemBad] delPairs
    (fun _ => rfl) (by decide) (by decide) (by decide) (by decide)

/-! ## Supporting lemmas for single-key grouping membership (C10) -/

/-- The group of a key in a grouping (empty when the key has no group). -/
def findGroup {β : Type} : List (PartitionKeyVal × List β) → PartitionKeyVal → List β
  | [], _ => []
  | g :: rest, k => if g.1 = k then g.2 else findGroup rest k

/-- Adding under a key appends to that key's group. -/
lemma findGroup_addToGroup_self {β : Type} (k : PartitionKeyVal) (x : β) :
    ∀ gs, findGroup (addToGroup gs k x) k = findGroup gs k ++ [x] := by
  intro gs
  induction gs with
  | nil => simp [addToGroup, findGroup]
  | cons g rest ih =>
    obtain ⟨gk, gxs⟩ := g
    by_cases hgk : gk = k
    · subst hgk
      simp [addToGroup, findGroup]
    · simp [addToGroup, findGroup, hgk, ih]

/-- Adding under another key leaves a group unchanged. -/
lemma findGroup_addToGroup_other {β : Type} (k k2 : PartitionKeyVal) (x : β)
    (h : k2 ≠ k) :
    ∀ gs, findGroup (addToGroup gs k2 x) k = findGroup gs k := by
  intro gs
  induction gs with
  | nil => simp [addToGroup, findGroup, h]
  | cons g rest ih =>
    obtain ⟨gk, gxs⟩ := g
    by_cases hgk : gk = k2
    · subst hgk
      simp [addToGroup, findGroup, h, ih]
    · simp [addToGroup, findGroup, hgk, ih]

/-- Membership in a key's group survives the rest of the grouping fold. -/
lemma findGroup_foldl_mono {α β : Type} (key : α → Option PartitionKeyVal)
    (val : α → β) (k : PartitionKeyVal) (v : β) :
    ∀ (xs : List α) (acc : List (PartitionKeyVal × List β)),
      v ∈ findGroup acc k → v ∈ findGroup (xs.foldl (groupStep key val) acc) k := by
  intro xs
  induction xs with
  | nil => intro acc h; exact h
  | cons x rest ih =>
    intro acc h
    rw [List.foldl_cons]
    apply ih
    unfold groupStep
    cases hx : key x with
    | none => exact h
    | some k2 =>
      by_cases hk : k2 = k
      · subst hk
        rw [findGroup_addToGroup_self]
        exact List.mem_append_left _ h
      · rw [findGroup_addToGroup_other k k2 (val x) hk]
        exact h

/-- An element whose key is computed lands in that key's group. -/
lemma mem_findGroup_foldl {α β : Type} (key : α → Option PartitionKeyVal)
    (val : α → β) (k : PartitionKeyVal) :
    ∀ (xs : List α) (acc : List (PartitionKeyVal × List β)) (x : α),
      x ∈ xs → key x = some k →
      val x ∈ findGroup (xs.foldl (groupStep key val) acc) k := by
  intro xs
  induction xs with
  | nil => intro acc x hx; cases hx
  | cons y rest ih =>
    intro acc x hx hkey
    rcases List.mem_cons.mp hx with h | h
    · subst h
      rw [List.foldl_cons]
      apply findGroup_foldl_mono
      unfold groupStep
      rw [hkey, findGroup_addToGroup_self]
      exact List.mem_append_right _ (by simp)
    · rw [List.foldl_cons]
      exact ih _ x h hkey

/-- Everything inside a group of `addToGroup` is either old content or the
added element. -/
lemma mem_addToGroup_sound {β : Type} (k : PartitionKeyVal) (x v : β) :
    ∀ gs g, g ∈ addToGroup gs k x → v ∈ g.2 →
      (∃ g0 ∈ gs, v ∈ g0.2) ∨ v = x := by
  intro gs
  induction gs with
  | nil =>
    intro g hg hv
    unfold addToGroup at hg
    rcases List.mem_singleton.mp hg with rfl
    rcases List.mem_singleton.mp hv with rfl
    exact Or.inr rfl
  | cons g0 rest ih =>
    intro g hg hv
    obtain ⟨gk, gxs⟩ := g0
    unfold addToGroup at hg
    by_cases hgk : gk = k
    · rw [if_pos hgk] at hg
      rcases List.mem_cons.mp hg with rfl | hgr
      · rcases List.mem_append.mp hv with hold | hnew
        · exact Or.inl ⟨(gk, gxs), by simp, hold⟩
        · exact Or.inr (List.mem_singleton.mp hnew)
      · exact Or.inl ⟨g, List.mem_cons_of_mem _ hgr, hv⟩
    · rw [if_neg hgk] at hg
      rcases List.mem_cons.mp hg with rfl | hgr
      · exact Or.inl ⟨(gk, gxs), by simp, hv⟩
      · rcases ih g hgr hv with ⟨g1, hg1, hv1⟩ | hvx
        · exact Or.inl ⟨g1, List.mem_cons_of_mem _ hg1, hv1⟩
        · exact Or.inr hvx

/-- Everything inside any group of the grouping fold came either from the
accumulator or from an element whose key was computed. -/
lemma mem_group_sound {α β : Type} (key : α → Option PartitionKeyVal)
    (val : α → β) (v : β) :
    ∀ (xs : List α) (acc : List (PartitionKeyVal × List β)) g,
      g ∈ xs.foldl (groupStep key val) acc → v ∈ g.2 →
      (∃ g0 ∈ acc, v ∈ g0.2) ∨
      (∃ x ∈ xs, (key x).isSome = true ∧ val x = v) := by
  intro xs
  induction xs with
  | nil =>
    intro acc g hg hv
    exact Or.inl ⟨g, hg, hv⟩
  | cons x rest ih =>
    intro acc g hg hv
    rw [List.foldl_cons] at hg
    rcases ih _ g hg hv with ⟨g0, hg0, hv0⟩ | ⟨y, hy, hys, hyv⟩
    · unfold groupStep at hg0
      cases hx : key x with
      | none =>
        rw [hx] at hg0
        exact Or.inl ⟨g0, hg0, hv0⟩
      | some k =>
        rw [hx] at hg0
        rcases mem_addToGroup_sound k (val x) v acc g0 hg0 hv0 with ⟨g1, hg1, hv1⟩ | hvx
        · exact Or.inl ⟨g1, hg1, hv1⟩
        · exact Or.inr ⟨x, by simp, by simp [hx], hvx.symm⟩
    · exact Or.inr ⟨y, List.mem_cons_of_mem _ hy, hys, hyv⟩

/-! ## C10 -/

/-- C10: under a single-field (non-hierarchical) partition-key specification,
an item whose named field is absent or falsy is not dropped when its id field
is truthy — the id value becomes its partition key and the item lands in that
key's group — and the item is dropped (appears in no group) only when both the
named field and the id are absent or falsy. -/
theorem C10_single_key_id_fallback (path : String) (items : List Item) (it : Item)
    (hpath : hasComma path = false) (hmem : it ∈ items)
    (hfield : (pyGet it path).truthy = false) :
    ((pyGet it "id").truthy = true →
      it ∈ findGroup (groupByPartitionKey items path)
        (PartitionKeyVal.single (pyGet it "id"))) ∧
    ((pyGet it "id").truthy = false →
      ∀ g ∈ groupByPartitionKey items path, ¬ it ∈ g.2) := by
  have hkey : computePK path it =
      (if (pyGet it "id").truthy then
        some (PartitionKeyVal.single (pyGet it "id")) else Option.none) := by
    unfold computePK
    rw [hpath]
    simp [hfield]
  constructor
  · intro hid
    have hk : computePK path it = some (PartitionKeyVal.single (pyGet it "id")) := by
      rw [hkey, if_pos hid]
    have h := mem_findGroup_foldl (computePK path) id
      (PartitionKeyVal.single (pyGet it "id")) items [] it hmem hk
    simpa [groupByPartitionKey, groupByKeyVal] using h
  · intro hid g hg hmem2
    have hnone : computePK path it = Option.none := by
      rw [hkey, if_neg (by simp [hid])]
    have h := mem_group_sound (computePK path) id it items [] g
      (by simpa [groupByPartitionKey, groupByKeyVal] using hg) hmem2
    rcases h with ⟨g0, hg0, _⟩ | ⟨x, _, hxs, hxv⟩
    · cases hg0
    · have : x = it := hxv
      subst this
      rw [hnone] at hxs
      cases hxs

/-- An item with only an id field (single-key spec, named field absent). -/
def userItemIdOnly : Item := [("id", PyVal.str "user-42")]

/-- Witness for C10: an item without the named partition-key field is grouped
under its id value. -/
theorem C10_single_key_id_fallback_witness :
    ((pyGet userItemIdOnly "id").truthy = true →
      userItemIdOnly ∈ findGroup
        (groupByPartitionKey [userItemIdOnly] "partitionKey")
        (PartitionKeyVal.single (pyGet userItemIdOnly "id"))) ∧
    ((pyGet userItemIdOnly "id").truthy = false →
      ∀ g ∈ groupByPartitionKey [userItemIdOnly] "partitionKey",
        ¬ userItemIdOnly ∈ g.2) :=
  C10_single_key_id_fallback "partitionKey" [userItemIdOnly] userItemIdOnly
    (by decide) (by decide) (by decide)
